import Mathlib

/-!
Verification of the responsive-image-set orchestration and content-addressed
cache layer of `image-web-resize`.

The TypeScript sources are shallowly embedded as Lean definitions:

* JS numbers appearing in the size pipeline are modelled as `ℚ` (rationals);
  widths that have passed through `Math.round` are modelled as `ℤ`.
* The JS `Map`/plain-object string maps are modelled as association lists
  with unique keys (`upsertA` mirrors `map.set`/`obj[k] = v` overwrite
  semantics, `eraseA` mirrors `map.delete`).
* `string | null | undefined` values are modelled as `Option (Option String)`
  (`none` = `undefined`, `some none` = `null`, `some (some s)` = a string).
* Async code is modelled two ways: a sequential (single caller, no
  interleaving) semantics for per-call claims, and an explicit microtask
  machine for the concurrency claim about `getOrCreate`.
-/

/-- Value of JS type `string | null | undefined`:
`none` is `undefined`, `some none` is `null`, `some (some s)` is string `s`. -/
abbrev VOpt := Option (Option String)

/-- Association-list lookup, modelling `map.get(key)` / `obj[key]`
(`none` means the JS value `undefined`). -/
def lookupA {α β : Type} [DecidableEq α] : List (α × β) → α → Option β
  | [], _ => none
  | (k', v) :: t, k => if k' = k then some v else lookupA t k

/-- Association-list insert-or-replace, modelling `map.set(key, v)` /
`obj[key] = v`: an existing binding is overwritten in place, a new key is
appended at the end (JS insertion order). -/
def upsertA {α β : Type} [DecidableEq α] (k : α) (v : β) : List (α × β) → List (α × β)
  | [] => [(k, v)]
  | (k', v') :: t => if k' = k then (k, v) :: t else (k', v') :: upsertA k v t

/-- Association-list removal, modelling `map.delete(key)` / `delete obj[key]`. -/
def eraseA {α β : Type} [DecidableEq α] (k : α) (l : List (α × β)) : List (α × β) :=
  l.filter (fun kv => kv.1 ≠ k)

theorem mem_upsertA {α β : Type} [DecidableEq α] {k : α} {v : β} {l : List (α × β)} {p : α × β}
    (h : p ∈ upsertA k v l) : p = (k, v) ∨ p ∈ l := by
  induction l with
  | nil => simpa [upsertA] using h
  | cons hd t ih =>
    by_cases hk : hd.1 = k
    · simp only [upsertA, hk, if_pos] at h
      rcases List.mem_cons.mp h with h1 | h1
      · exact Or.inl h1
      · exact Or.inr (List.mem_cons_of_mem _ h1)
    · simp only [upsertA, hk, if_neg, not_false_iff] at h
      rcases List.mem_cons.mp h with h1 | h1
      · exact Or.inr (h1 ▸ List.mem_cons_self _ _)
      · rcases ih h1 with h2 | h2
        · exact Or.inl h2
        · exact Or.inr (List.mem_cons_of_mem _ h2)

theorem lookupA_mem {α β : Type} [DecidableEq α] {l : List (α × β)} {k : α} {v : β}
    (h : lookupA l k = some v) : (k, v) ∈ l := by
  induction l with
  | nil => simp [lookupA] at h
  | cons hd t ih =>
    by_cases hk : hd.1 = k
    · simp only [lookupA, hk, if_pos] at h
      refine List.mem_cons.mpr (Or.inl ?_)
      cases hd
      simp_all
    · simp only [lookupA, hk, if_neg, not_false_iff] at h
      exact List.mem_cons_of_mem _ (ih h)

theorem lookupA_eraseA_self {α β : Type} [DecidableEq α] (k : α) (l : List (α × β)) :
    lookupA (eraseA k l) k = none := by
  induction l with
  | nil => rfl
  | cons hd t ih =>
    by_cases hk : hd.1 = k
    · simpa [eraseA, hk] using ih
    · simpa [eraseA, hk, lookupA] using ih

/-- JS `Math.round` on a rational: rounds half-up (toward `+∞`). -/
def jsRound (q : ℚ) : ℤ := ⌊q + 1 / 2⌋

/-- JS `Math.floor` on a rational. -/
def jsFloorQ (q : ℚ) : ℤ := ⌊q⌋

/-! ## SizeConsolidator (`processImageRequest`, `part_000` lines 30-57)

`interface SizeSpec { density, width, actualWidth }` with
`actualWidth = Math.round(imageWidth * density)` before consolidation. -/

/-- Breakpoint from `types.ts`: `maxWidth : number | null`, `imageWidth`. -/
structure Breakpoint where
  maxWidth : Option ℚ
  imageWidth : ℚ
deriving Repr, DecidableEq

/-- SizeSpec from `part_000`: `density`, `width` (original target width) and
`actualWidth` (actual transformed width, an integer since it comes from
`Math.round`). -/
structure SizeSpec where
  density : ℚ
  width : ℚ
  actualWidth : ℤ
deriving Repr, DecidableEq

/-- Enumeration loop of `processImageRequest`: for each breakpoint, for each
density, push `{ width: imageWidth, density, actualWidth: Math.round(imageWidth * density) }`. -/
def allSizes (breakpoints : List Breakpoint) (densities : List ℚ) : List SizeSpec :=
  breakpoints.flatMap fun bp =>
    densities.map fun d => ⟨d, bp.imageWidth, jsRound (bp.imageWidth * d)⟩

/-- Comparator order of `allSizes.sort((a, b) => b.actualWidth - a.actualWidth)`:
`a` precedes `b` when `b.actualWidth ≤ a.actualWidth` (descending). -/
def sizeDescRel (a b : SizeSpec) : Prop := b.actualWidth ≤ a.actualWidth

instance : DecidableRel sizeDescRel := fun a b =>
  inferInstanceAs (Decidable (b.actualWidth ≤ a.actualWidth))

instance : IsTotal SizeSpec sizeDescRel :=
  ⟨fun a b => le_total b.actualWidth a.actualWidth⟩

instance : IsTrans SizeSpec sizeDescRel :=
  ⟨fun _ _ _ h1 h2 => le_trans h2 h1⟩

/-- Model of `allSizes.sort(({actualWidth: a}, {actualWidth: b}) => b - a)`:
a stable descending sort by `actualWidth` (JS `Array.prototype.sort` is
stable, as is `List.insertionSort`). -/
def sortSizes (l : List SizeSpec) : List SizeSpec :=
  l.insertionSort sizeDescRel

/-- Consolidated size map keyed by the pair `(width, density)`. The source
keys the record by the string `` width@density ``; since JS number strings
never contain `@`, that string key is in bijection with the pair, so the
pair is used directly as the key here. -/
abbrev SizeMap := List ((ℚ × ℚ) × SizeSpec)

/-- Pair-keyed variants of the association-list operations for `SizeMap`. -/
def lookupS : SizeMap → ℚ × ℚ → Option SizeSpec
  | [], _ => none
  | (k', v) :: t, k => if k' = k then some v else lookupS t k

/-- Insert-or-replace for `SizeMap` (JS `consolidatedSizes[key] = value`). -/
def upsertS (k : ℚ × ℚ) (v : SizeSpec) : SizeMap → SizeMap
  | [] => [(k, v)]
  | (k', v') :: t => if k' = k then (k, v) :: t else (k', v') :: upsertS k v t

theorem mem_upsertS {k : ℚ × ℚ} {v : SizeSpec} {l : SizeMap} {p : (ℚ × ℚ) × SizeSpec}
    (h : p ∈ upsertS k v l) : p = (k, v) ∨ p ∈ l := by
  induction l with
  | nil => simpa [upsertS] using h
  | cons hd t ih =>
    by_cases hk : hd.1 = k
    · simp only [upsertS, hk, if_pos] at h
      rcases List.mem_cons.mp h with h1 | h1
      · exact Or.inl h1
      · exact Or.inr (List.mem_cons_of_mem _ h1)
    · simp only [upsertS, hk, if_neg, not_false_iff] at h
      rcases List.mem_cons.mp h with h1 | h1
      · exact Or.inr (h1 ▸ List.mem_cons_self _ _)
      · rcases ih h1 with h2 | h2
        · exact Or.inl h2
        · exact Or.inr (List.mem_cons_of_mem _ h2)

theorem lookupS_mem {l : SizeMap} {k : ℚ × ℚ} {v : SizeSpec}
    (h : lookupS l k = some v) : (k, v) ∈ l := by
  induction l with
  | nil => simp [lookupS] at h
  | cons hd t ih =>
    by_cases hk : hd.1 = k
    · simp only [lookupS, hk, if_pos] at h
      refine List.mem_cons.mpr (Or.inl ?_)
      cases hd
      simp_all
    · simp only [lookupS, hk, if_neg, not_false_iff] at h
      exact List.mem_cons_of_mem _ (ih h)

/-- Consolidation walk of `processImageRequest` (`part_000` lines 45-56):
keep `lastUsedSize`; if it exists and
`lastUsedSize.actualWidth * sizeThreshold <= size.actualWidth`, record the
spec under its own key with `actualWidth` rewritten to
`lastUsedSize.actualWidth`; otherwise record the spec unchanged and make it
the new `lastUsedSize`. -/
def consolidateLoop (threshold : ℚ) :
    List SizeSpec → Option SizeSpec → SizeMap → SizeMap
  | [], _, acc => acc
  | s :: rest, some lu, acc =>
    if (lu.actualWidth : ℚ) * threshold ≤ (s.actualWidth : ℚ) then
      consolidateLoop threshold rest (some lu)
        (upsertS (s.width, s.density) { s with actualWidth := lu.actualWidth } acc)
    else
      consolidateLoop threshold rest (some s) (upsertS (s.width, s.density) s acc)
  | s :: rest, none, acc =>
    consolidateLoop threshold rest (some s) (upsertS (s.width, s.density) s acc)

/-- Full `consolidatedSizes` computation of `processImageRequest`:
enumerate, sort descending by `actualWidth`, then walk with the threshold. -/
def consolidatedSizes (breakpoints : List Breakpoint) (densities : List ℚ)
    (threshold : ℚ) : SizeMap :=
  consolidateLoop threshold (sortSizes (allSizes breakpoints densities)) none []

theorem mem_allSizes {bps : List Breakpoint} {ds : List ℚ} {x : SizeSpec} :
    x ∈ allSizes bps ds ↔
      ∃ bp ∈ bps, ∃ d ∈ ds, x = ⟨d, bp.imageWidth, jsRound (bp.imageWidth * d)⟩ := by
  simp only [allSizes, List.mem_flatMap, List.mem_map]
  constructor
  · rintro ⟨bp, hbp, d, hd, rfl⟩
    exact ⟨bp, hbp, d, hd, rfl⟩
  · rintro ⟨bp, hbp, d, hd, rfl⟩
    exact ⟨bp, hbp, d, hd, rfl⟩

theorem allSizes_round {bps : List Breakpoint} {ds : List ℚ} :
    ∀ y ∈ allSizes bps ds, y.actualWidth = jsRound (y.width * y.density) := by
  intro y hy
  obtain ⟨bp, _, d, _, rfl⟩ := mem_allSizes.mp hy
  rfl

theorem sortSizes_sorted (l : List SizeSpec) : List.Sorted sizeDescRel (sortSizes l) :=
  List.sorted_insertionSort sizeDescRel l

theorem mem_sortSizes {x : SizeSpec} {l : List SizeSpec} : x ∈ sortSizes l ↔ x ∈ l :=
  (List.perm_insertionSort sizeDescRel l).mem_iff

/-- Invariant satisfied by every entry the consolidation walk records: the key
is the `(width, density)` pair of the stored spec, the stored `actualWidth` is
at least the rounded product, and the stored `actualWidth` is the
`actualWidth` of some enumerated spec. -/
def ConsEntryOK (base : List SizeSpec) (p : ℚ × ℚ) (s : SizeSpec) : Prop :=
  p = (s.width, s.density) ∧ jsRound (s.width * s.density) ≤ s.actualWidth ∧
    ∃ y ∈ base, s.actualWidth = y.actualWidth

theorem consolidateLoop_ok {base : List SizeSpec}
    (hbase : ∀ y ∈ base, y.actualWidth = jsRound (y.width * y.density)) (t : ℚ)
    (L : List SizeSpec) :
    ∀ (lu : Option SizeSpec) (acc : SizeMap),
      List.Sorted sizeDescRel L →
      (∀ x ∈ L, x ∈ base) →
      (∀ u, lu = some u → u ∈ base ∧ ∀ x ∈ L, x.actualWidth ≤ u.actualWidth) →
      (∀ p s, (p, s) ∈ acc → ConsEntryOK base p s) →
      ∀ p s, (p, s) ∈ consolidateLoop t L lu acc → ConsEntryOK base p s := by
  induction L with
  | nil =>
    intro lu acc _ _ _ hacc p s h
    exact hacc p s (by simpa [consolidateLoop] using h)
  | cons x rest ih =>
    intro lu acc hsort hmem hlu hacc p s h
    obtain ⟨hx_le, hsort'⟩ := List.sorted_cons.mp hsort
    have hxbase : x ∈ base := hmem x (List.mem_cons_self _ _)
    have hxround : x.actualWidth = jsRound (x.width * x.density) := hbase x hxbase
    have hmem' : ∀ z ∈ rest, z ∈ base := fun z hz => hmem z (List.mem_cons_of_mem _ hz)
    cases lu with
    | none =>
      simp only [consolidateLoop] at h
      refine ih (some x) _ hsort' hmem' ?_ ?_ p s h
      · rintro u hu
        injection hu with hu
        subst hu
        exact ⟨hxbase, fun z hz => hx_le z hz⟩
      · intro p' s' h'
        rcases mem_upsertS h' with h1 | h1
        · simp only [Prod.mk.injEq] at h1
          obtain ⟨hp, hs⟩ := h1
          rw [hp, hs]
          exact ⟨rfl, le_of_eq hxround.symm, ⟨x, hxbase, rfl⟩⟩
        · exact hacc _ _ h1
    | some u =>
      have hu := hlu u rfl
      simp only [consolidateLoop] at h
      by_cases hc : (u.actualWidth : ℚ) * t ≤ (x.actualWidth : ℚ)
      · rw [if_pos hc] at h
        refine ih (some u) _ hsort' hmem' ?_ ?_ p s h
        · rintro u' hu'
          injection hu' with hu'
          subst hu'
          exact ⟨hu.1, fun z hz => hu.2 z (List.mem_cons_of_mem _ hz)⟩
        · intro p' s' h'
          rcases mem_upsertS h' with h1 | h1
          · simp only [Prod.mk.injEq] at h1
            obtain ⟨hp, hs⟩ := h1
            rw [hp, hs]
            refine ⟨rfl, ?_, ⟨u, hu.1, rfl⟩⟩
            show jsRound (x.width * x.density) ≤ u.actualWidth
            rw [← hxround]
            exact hu.2 x (List.mem_cons_self _ _)
          · exact hacc _ _ h1
      · rw [if_neg hc] at h
        refine ih (some x) _ hsort' hmem' ?_ ?_ p s h
        · rintro u' hu'
          injection hu' with hu'
          subst hu'
          exact ⟨hxbase, fun z hz => hx_le z hz⟩
        · intro p' s' h'
          rcases mem_upsertS h' with h1 | h1
          · simp only [Prod.mk.injEq] at h1
            obtain ⟨hp, hs⟩ := h1
            rw [hp, hs]
            exact ⟨rfl, le_of_eq hxround.symm, ⟨x, hxbase, rfl⟩⟩
          · exact hacc _ _ h1

theorem consolidatedSizes_ok (bps : List Breakpoint) (ds : List ℚ) (t : ℚ) :
    ∀ p s, (p, s) ∈ consolidatedSizes bps ds t → ConsEntryOK (allSizes bps ds) p s := by
  refine consolidateLoop_ok allSizes_round t _ none [] (sortSizes_sorted _)
    (fun z hz => mem_sortSizes.mp hz) ?_ ?_
  · intro u hu
    exact Option.noConfusion hu
  · intro p s h
    exact absurd h (List.not_mem_nil _)

theorem consolidateLoop_identity {base : List SizeSpec}
    (hbase : ∀ y ∈ base, y.actualWidth = jsRound (y.width * y.density))
    (L : List SizeSpec) :
    ∀ (lu : Option SizeSpec) (acc : SizeMap),
      List.Pairwise (fun a b => b.actualWidth < a.actualWidth) L →
      (∀ x ∈ L, x ∈ base) →
      (∀ u, lu = some u → ∀ x ∈ L, x.actualWidth < u.actualWidth) →
      (∀ p s, (p, s) ∈ acc →
        p = (s.width, s.density) ∧ s.actualWidth = jsRound (s.width * s.density)) →
      ∀ p s, (p, s) ∈ consolidateLoop 1 L lu acc →
        p = (s.width, s.density) ∧ s.actualWidth = jsRound (s.width * s.density) := by
  induction L with
  | nil =>
    intro lu acc _ _ _ hacc p s h
    exact hacc p s (by simpa [consolidateLoop] using h)
  | cons x rest ih =>
    intro lu acc hstrict hmem hlu hacc p s h
    obtain ⟨hx_lt, hstrict'⟩ := List.pairwise_cons.mp hstrict
    have hxbase : x ∈ base := hmem x (List.mem_cons_self _ _)
    have hxround : x.actualWidth = jsRound (x.width * x.density) := hbase x hxbase
    have hmem' : ∀ z ∈ rest, z ∈ base := fun z hz => hmem z (List.mem_cons_of_mem _ hz)
    have hstep : ∀ p' s', (p', s') ∈ upsertS (x.width, x.density) x acc →
        p' = (s'.width, s'.density) ∧ s'.actualWidth = jsRound (s'.width * s'.density) := by
      intro p' s' h'
      rcases mem_upsertS h' with h1 | h1
      · simp only [Prod.mk.injEq] at h1
        obtain ⟨hp, hs⟩ := h1
        rw [hp, hs]
        exact ⟨rfl, hxround⟩
      · exact hacc _ _ h1
    have hlux : ∀ u, (some x : Option SizeSpec) = some u →
        ∀ z ∈ rest, z.actualWidth < u.actualWidth := by
      rintro u hu
      injection hu with hu
      subst hu
      exact fun z hz => hx_lt z hz
    cases lu with
    | none =>
      simp only [consolidateLoop] at h
      exact ih (some x) _ hstrict' hmem' hlux hstep p s h
    | some u =>
      have hxu : x.actualWidth < u.actualWidth := hlu u rfl x (List.mem_cons_self _ _)
      have hc : ¬ ((u.actualWidth : ℚ) * 1 ≤ (x.actualWidth : ℚ)) := by
        rw [mul_one]
        rw [not_le]
        exact_mod_cast hxu
      simp only [consolidateLoop] at h
      rw [if_neg hc] at h
      exact ih (some x) _ hstrict' hmem' hlux hstep p s h

/-- Demonstration request data used by the concrete witnesses below. -/
def demoBreakpoints : List Breakpoint := [⟨some 600, 300⟩, ⟨none, 1200⟩]

/-- Demonstration density list used by the concrete witnesses below. -/
def demoDensities : List ℚ := [1, 2]

/-- C8: for every breakpoints list, densities list and threshold in `(0, 1]`,
every `(nominalWidth, density)` entry of the consolidated size map has a
consolidated `actualWidth` at least `round(nominalWidth * density)`, the
entry's original actual width. -/
theorem C8_consolidation_monotonic (bps : List Breakpoint) (ds : List ℚ) (t : ℚ)
    (_ht0 : 0 < t) (_ht1 : t ≤ 1) (w d : ℚ) (s : SizeSpec)
    (h : lookupS (consolidatedSizes bps ds t) (w, d) = some s) :
    jsRound (w * d) ≤ s.actualWidth := by
  obtain ⟨hp, hle, -⟩ := consolidatedSizes_ok bps ds t _ _ (lookupS_mem h)
  simp only [Prod.mk.injEq] at hp
  obtain ⟨hw, hd⟩ := hp
  rw [hw, hd]
  exact hle

/-- Witness for C8 at the concrete scenario of spec section 8: breakpoints
`[{maxWidth: 600, imageWidth: 300}, {maxWidth: null, imageWidth: 1200}]`,
densities `[1, 2]`, threshold `0.8`. -/
theorem C8_consolidation_monotonic_witness :
    (0 : ℚ) < 4 / 5 ∧ (4 : ℚ) / 5 ≤ 1 ∧
      lookupS (consolidatedSizes demoBreakpoints demoDensities (4 / 5)) (300, 2)
        = some ⟨2, 300, 600⟩ ∧
      jsRound ((300 : ℚ) * 2) ≤ (600 : ℤ) := by
  have hl : lookupS (consolidatedSizes demoBreakpoints demoDensities (4 / 5)) (300, 2)
      = some ⟨2, 300, 600⟩ := by
    norm_num [demoBreakpoints, demoDensities, consolidatedSizes, sortSizes, allSizes,
      jsRound, List.insertionSort, List.orderedInsert, sizeDescRel, consolidateLoop,
      upsertS, lookupS]
  exact ⟨by norm_num, by norm_num,  hl,
    C8_consolidation_monotonic demoBreakpoints demoDensities (4 / 5)
      (by norm_num) (by norm_num) 300 2 ⟨2, 300, 600⟩ hl⟩

/-- C9: when the enumerated `actualWidth` values are pairwise distinct and the
threshold is `1`, consolidation is the identity: every key of the consolidated
map stores the unconsolidated `actualWidth = round(nominalWidth * density)`. -/
theorem C9_consolidation_identity (bps : List Breakpoint) (ds : List ℚ)
    (hdist : (allSizes bps ds).Pairwise (fun a b => a.actualWidth ≠ b.actualWidth))
    (w d : ℚ) (s : SizeSpec)
    (h : lookupS (consolidatedSizes bps ds 1) (w, d) = some s) :
    s.actualWidth = jsRound (w * d) := by
  have hperm := List.perm_insertionSort sizeDescRel (allSizes bps ds)
  have hdist' : (sortSizes (allSizes bps ds)).Pairwise
      (fun a b => a.actualWidth ≠ b.actualWidth) :=
    (hperm.pairwise_iff (fun hab => Ne.symm hab)).mpr hdist
  have hstrict : (sortSizes (allSizes bps ds)).Pairwise
      (fun a b => b.actualWidth < a.actualWidth) :=
    ((sortSizes_sorted (allSizes bps ds)).and hdist').imp
      (fun hab => lt_of_le_of_ne hab.1 (Ne.symm hab.2))
  have hres := consolidateLoop_identity allSizes_round _ none []
    hstrict (fun z hz => mem_sortSizes.mp hz)
    (fun u hu => Option.noConfusion hu)
    (fun p s h => absurd h (List.not_mem_nil _))
    _ _ (lookupS_mem h)
  obtain ⟨hp, hround⟩ := hres
  simp only [Prod.mk.injEq] at hp
  obtain ⟨hw, hd⟩ := hp
  rw [hround, hw, hd]

/-- Witness for C9 at the demonstration data (enumerated widths
`300, 600, 1200, 2400` are pairwise distinct, threshold `1`). -/
theorem C9_consolidation_identity_witness :
    (allSizes demoBreakpoints demoDensities).Pairwise
        (fun a b => a.actualWidth ≠ b.actualWidth) ∧
      lookupS (consolidatedSizes demoBreakpoints demoDensities 1) (1200, 2)
        = some ⟨2, 1200, 2400⟩ ∧
      (⟨2, 1200, 2400⟩ : SizeSpec).actualWidth = jsRound ((1200 : ℚ) * 2) := by
  have hdist : (allSizes demoBreakpoints demoDensities).Pairwise
      (fun a b => a.actualWidth ≠ b.actualWidth) := by
    norm_num [demoBreakpoints, demoDensities, allSizes, jsRound, List.pairwise_cons]
  have hl : lookupS (consolidatedSizes demoBreakpoints demoDensities 1) (1200, 2)
      = some ⟨2, 1200, 2400⟩ := by
    norm_num [demoBreakpoints, demoDensities, consolidatedSizes, sortSizes, allSizes,
      jsRound, List.insertionSort, List.orderedInsert, sizeDescRel, consolidateLoop,
      upsertS, lookupS]
  exact ⟨hdist, hl,
    C9_consolidation_identity demoBreakpoints demoDensities hdist 1200 2 _ hl⟩

/-- C10: for every breakpoints list, densities list and threshold, every
`actualWidth` stored in the consolidated size map equals
`round(imageWidth * density)` for some enumerated (breakpoint, density) pair:
consolidation never invents a width. -/
theorem C10_consolidation_never_invents (bps : List Breakpoint) (ds : List ℚ)
    (t : ℚ) (p : ℚ × ℚ) (s : SizeSpec)
    (h : (p, s) ∈ consolidatedSizes bps ds t) :
    ∃ bp ∈ bps, ∃ d ∈ ds, s.actualWidth = jsRound (bp.imageWidth * d) := by
  obtain ⟨-, -, y, hy, haw⟩ := consolidatedSizes_ok bps ds t _ _ h
  obtain ⟨bp, hbp, d, hd, rfl⟩ := mem_allSizes.mp hy
  exact ⟨bp, hbp, d, hd, haw⟩

/-- Witness for C10 at the demonstration data with threshold `0.4`, which
forces a merge: the `(1200, 1)` slot is absorbed into the `2400` render, and
`2400 = round(1200 * 2)` comes from an enumerated pair. -/
theorem C10_consolidation_never_invents_witness :
    ((1200, 1), (⟨1, 1200, 2400⟩ : SizeSpec)) ∈
        consolidatedSizes demoBreakpoints demoDensities (2 / 5) ∧
      ∃ bp ∈ demoBreakpoints, ∃ d ∈ demoDensities,
        (⟨1, 1200, 2400⟩ : SizeSpec).actualWidth = jsRound (bp.imageWidth * d) := by
  have hmem : ((1200, 1), (⟨1, 1200, 2400⟩ : SizeSpec)) ∈
      consolidatedSizes demoBreakpoints demoDensities (2 / 5) := by
    norm_num [demoBreakpoints, demoDensities, consolidatedSizes, sortSizes, allSizes,
      jsRound, List.insertionSort, List.orderedInsert, sizeDescRel, consolidateLoop,
      upsertS]
  exact ⟨hmem,
    C10_consolidation_never_invents demoBreakpoints demoDensities (2 / 5) _ _ hmem⟩

/-! ## StringKeyValueStore implementations (`string-kv-store.ts`)

Sequential (single caller, no interleaving) semantics of the two stores.
In the absence of interleaving a pending `defer` placeholder never outlives
the `getOrCreate` call that created it, so the store state is a map of
resolved `string | null` values. -/

/-- Store state: resolved entries, `key ↦ string | null`. -/
abbrev Cache := List (String × Option String)

/-- Factory outcome in the sequential semantics: the value the factory
returns, or the error it throws. -/
abbrev FactoryOutcome := Except String (Option String)

/-- Result of a `RuntimeStringKeyValueStore.getOrCreate` call. -/
structure GetOrCreateResult where
  result : Except String (Option String)
  data : Cache
  ranFactory : Bool
deriving Repr

/-- RuntimeStringKeyValueStore.getOrCreate (`string-kv-store.ts` lines 39-54),
sequential semantics: return an existing entry without running the factory;
otherwise run the factory, store its value on success (`promise.resolve`),
or `delete this.data[key]` and rethrow on failure. -/
def runtimeGetOrCreate (data : Cache) (key : String) (factory : FactoryOutcome) :
    GetOrCreateResult :=
  match lookupA data key with
  | some v => ⟨.ok v, data, false⟩
  | none =>
    match factory with
    | .ok v => ⟨.ok v, upsertA key v data, true⟩
    | .error e => ⟨.error e, eraseA key data, true⟩

/-- Observable action of the storage-backed store: an `onUpdate(key, value, save)`
invocation, or a `save()` call. -/
inductive CacheAction where
  | updateHook (key : String) (value : VOpt)
  | save
deriving Repr, DecidableEq

/-- Injectable `onUpdate` handler, modelled by the actions it performs. -/
abbrev UpdateHook := String → VOpt → List CacheAction

/-- Default `onUpdate` from the `StorageStringKeyValueStore` constructor
(line 78): `(_, __, save) => save()` — saves immediately (write-through). -/
def defaultOnUpdate : UpdateHook := fun _ _ => [.save]

/-- StorageStringKeyValueStore.set (lines 125-135): deleting an absent key
returns early; storing an unchanged value returns early; otherwise the map is
mutated and `onUpdate(key, value, save)` runs. -/
def storageSet (onUpdate : UpdateHook) (data : Cache) (key : String) (value : VOpt) :
    Cache × List CacheAction :=
  match value with
  | none =>
    if lookupA data key = none then (data, [])
    else (eraseA key data, .updateHook key none :: onUpdate key none)
  | some v =>
    if lookupA data key = some v then (data, [])
    else (upsertA key v data, .updateHook key (some v) :: onUpdate key (some v))

/-- Result of a `StorageStringKeyValueStore.getOrCreate` call. -/
structure StorageGOCResult where
  result : Except String (Option String)
  data : Cache
  actions : List CacheAction
  ranFactory : Bool
deriving Repr

/-- StorageStringKeyValueStore.getOrCreate (lines 137-155), sequential
semantics: an existing entry is returned with no hook; otherwise the factory
runs; on success the value is stored and `onUpdate` runs; on failure
`data.delete(key)` clears the slot and the error is rethrown. -/
def storageGetOrCreate (onUpdate : UpdateHook) (data : Cache) (key : String)
    (factory : FactoryOutcome) : StorageGOCResult :=
  match lookupA data key with
  | some v => ⟨.ok v, data, [], false⟩
  | none =>
    match factory with
    | .ok v =>
      ⟨.ok v, upsertA key v data, .updateHook key (some v) :: onUpdate key (some v), true⟩
    | .error e => ⟨.error e, eraseA key data, [], true⟩

/-- C5: for both stores, a `getOrCreate` call whose factory throws removes the
entry for that key entirely (a subsequent call with the same key runs its
factory again) and propagates the error to the caller that ran the factory. -/
theorem C5_factory_failure_cleanup (data : Cache) (key : String) (e : String)
    (h : lookupA data key = none) :
    ((runtimeGetOrCreate data key (.error e)).result = .error e ∧
      lookupA (runtimeGetOrCreate data key (.error e)).data key = none ∧
      ∀ f, (runtimeGetOrCreate (runtimeGetOrCreate data key (.error e)).data key f).ranFactory
          = true) ∧
    ∀ onUpdate : UpdateHook,
      (storageGetOrCreate onUpdate data key (.error e)).result = .error e ∧
      lookupA (storageGetOrCreate onUpdate data key (.error e)).data key = none ∧
      ∀ f, (storageGetOrCreate onUpdate (storageGetOrCreate onUpdate data key (.error e)).data
          key f).ranFactory = true := by
  have hrun : runtimeGetOrCreate data key (.error e)
      = ⟨.error e, eraseA key data, true⟩ := by
    simp [runtimeGetOrCreate, h]
  have herase := lookupA_eraseA_self key data
  constructor
  · rw [hrun]
    refine ⟨rfl, herase, ?_⟩
    intro f
    cases f <;> simp [runtimeGetOrCreate, herase]
  · intro onUpdate
    have hsto : storageGetOrCreate onUpdate data key (.error e)
        = ⟨.error e, eraseA key data, [], true⟩ := by
      simp [storageGetOrCreate, h]
    rw [hsto]
    refine ⟨rfl, herase, ?_⟩
    intro f
    cases f <;> simp [storageGetOrCreate, herase]

/-- Witness for C5: failing factory on a fresh store, both stores. -/
theorem C5_factory_failure_cleanup_witness :
    lookupA ([] : Cache) "k" = none ∧
      (runtimeGetOrCreate [] "k" (.error "boom")).result = .error "boom" ∧
      lookupA (runtimeGetOrCreate [] "k" (.error "boom")).data "k" = none ∧
      (runtimeGetOrCreate (runtimeGetOrCreate [] "k" (.error "boom")).data "k"
          (.ok (some "v"))).ranFactory = true ∧
      (storageGetOrCreate defaultOnUpdate [] "k" (.error "boom")).result = .error "boom" := by
  have h : lookupA ([] : Cache) "k" = none := rfl
  obtain ⟨⟨hr1, hr2, hr3⟩, hs⟩ := C5_factory_failure_cleanup [] "k" "boom" h
  exact ⟨h, hr1, hr2, hr3 _, (hs defaultOnUpdate).1⟩

/-- C7 counterexample: `set("k", "v")` on a store that already maps `"k"` to
`"v"` is a successful `set` call, yet it performs no `onUpdate` action at all
(the source returns early when `existing === value`). -/
theorem C7_counterexample :
    (storageSet defaultOnUpdate [("k", some "v")] "k" (some (some "v"))).2 = [] ∧
      (storageSet defaultOnUpdate [("k", some "v")] "k" (some (some "v"))).1
        = [("k", some "v")] := by
  constructor <;> rfl

/-- C7 amended: a `set` that changes the stored mapping (removing a present
key, or storing a value different from the current one) and a `getOrCreate`
whose factory runs and succeeds trigger `onUpdate(key, value, save)`, and the
default `onUpdate` calls `save` immediately; a no-change `set` and a
`getOrCreate` served from an existing entry skip the hook. -/
theorem C7_onUpdate_on_change (data : Cache) (key : String) :
    (∀ v : Option String, lookupA data key ≠ some v →
      (storageSet defaultOnUpdate data key (some v)).2
        = [.updateHook key (some v), .save]) ∧
    (lookupA data key ≠ none →
      (storageSet defaultOnUpdate data key none).2 = [.updateHook key none, .save]) ∧
    (lookupA data key = none → ∀ v : Option String,
      (storageGetOrCreate defaultOnUpdate data key (.ok v)).actions
        = [.updateHook key (some v), .save]) ∧
    (∀ v : Option String, lookupA data key = some v →
      ∀ f, (storageGetOrCreate defaultOnUpdate data key f).actions = []) := by
  refine ⟨?_, ?_, ?_, ?_⟩
  · intro v hv
    simp only [storageSet]
    rw [if_neg hv]
    rfl
  · intro hv
    simp only [storageSet]
    rw [if_neg hv]
    rfl
  · intro hv v
    simp [storageGetOrCreate, hv, defaultOnUpdate]
  · intro v hv f
    simp [storageGetOrCreate, hv]

/-- Witness for C7 at concrete stores: a fresh `set`, a deleting `set`, a
fresh `getOrCreate` and a served-from-cache `getOrCreate`. -/
theorem C7_onUpdate_on_change_witness :
    (storageSet defaultOnUpdate [] "k" (some (some "x"))).2
        = [.updateHook "k" (some (some "x")), .save] ∧
      (storageSet defaultOnUpdate [("k", some "v")] "k" none).2
        = [.updateHook "k" none, .save] ∧
      (storageGetOrCreate defaultOnUpdate [] "k" (.ok (some "y"))).actions
        = [.updateHook "k" (some (some "y")), .save] ∧
      (storageGetOrCreate defaultOnUpdate [("k", some "v")] "k"
          (.ok (some "z"))).actions = [] := by
  obtain ⟨h1, h2, h3, h4⟩ := C7_onUpdate_on_change [("k", some "v")] "k"
  obtain ⟨g1, g2, g3, g4⟩ := C7_onUpdate_on_change ([] : Cache) "k"
  exact ⟨g1 (some "x") (by simp [lookupA]), h2 (by simp [lookupA]),
    g3 rfl (some "y"), h4 (some "v") rfl _⟩

/-! ## StorageStringKeyValueStore.getData (`string-kv-store.ts` lines 82-103)

The blob read (`readUtf8`) and `JSON.parse` are external collaborators; the
load path is modelled over their combined outcome: `.error ()` when the read
throws (missing blob), `.ok none` when `JSON.parse` throws (invalid JSON),
`.ok (some v)` when parsing produced the JSON value `v`. -/

/-- JSON value as produced by `JSON.parse`. -/
inductive JValue where
  | jnull
  | jbool (b : Bool)
  | jnum (n : ℤ)
  | jstr (s : String)
  | jarr (elems : List JValue)
  | jobj (fields : List (String × JValue))

/-- JS falsiness of a parsed JSON value (the `!data` test): `null`, `false`,
`0` and the empty string are falsy; objects and arrays are always truthy. -/
def jsFalsy : JValue → Bool
  | .jnull => true
  | .jbool b => !b
  | .jnum n => n = 0
  | .jstr s => s = ""
  | .jarr _ => false
  | .jobj _ => false

/-- JS `typeof data === "object"` on a parsed JSON value: true for `null`,
arrays and objects. -/
def jsTypeofObject : JValue → Bool
  | .jnull => true
  | .jarr _ => true
  | .jobj _ => true
  | _ => false

/-- Whether a JSON value is a string (`typeof x === 'string'`). -/
def isJString : JValue → Bool
  | .jstr _ => true
  | _ => false

/-- String payload of a JSON string value. -/
def jStringValue : JValue → String
  | .jstr s => s
  | _ => ""

/-- Model of `Object.entries` (and, via the second components, of
`Object.values`) on the values that pass the `typeof` check: object fields,
or array elements keyed by their decimal indices. -/
def jsEntries : JValue → List (String × JValue)
  | .jobj fields => fields
  | .jarr elems => elems.enum.map fun p => (toString p.1, p.2)
  | _ => []

/-- How a load failure was reported (`string-kv-store.ts` lines 91-97): via
the injected `onLoadError` hook, via the default `console.error` logger when
no hook is injected, or via the fallback logger when the hook itself threw. -/
inductive LoadReport where
  | noReport
  | viaHook
  | viaLoggerDefault
  | hookFailedThenLogger
deriving Repr, DecidableEq

/-- Outcome of the `getData` load path: how a failure (if any) was reported,
and the resulting in-memory entries. -/
structure LoadOutcome where
  report : LoadReport
  entries : List (String × String)
deriving Repr, DecidableEq

/-- Failure branch of `getData`: report through the hook when present
(falling back to the logger if the hook throws, lines 92-97), and return an
empty map — the error is never rethrown. -/
def loadFailure (hookPresent hookThrows : Bool) : LoadOutcome :=
  { report :=
      if hookPresent then (if hookThrows then .hookFailedThenLogger else .viaHook)
      else .viaLoggerDefault,
    entries := [] }

/-- StorageStringKeyValueStore.getData load path (lines 82-103): on a read or
parse failure, a falsy or non-`typeof "object"` value, or any non-string
value, fall back to an empty map and report; otherwise build the map from
`Object.entries` (later duplicates overwrite, as in `new Map`). -/
def storageGetData (raw : Except Unit (Option JValue)) (hookPresent hookThrows : Bool) :
    LoadOutcome :=
  match raw with
  | .error _ => loadFailure hookPresent hookThrows
  | .ok none => loadFailure hookPresent hookThrows
  | .ok (some v) =>
    if jsFalsy v || !jsTypeofObject v then loadFailure hookPresent hookThrows
    else if (jsEntries v).any fun kv => !isJString kv.2 then
      loadFailure hookPresent hookThrows
    else
      { report := .noReport,
        entries := (jsEntries v).foldl (fun m kv => upsertA kv.1 (jStringValue kv.2) m) [] }

/-- Predicate following the claim's words: the parsed content is a JSON
object (the key/value datatype — a JSON array is not a JSON object). -/
def isJsonObject : JValue → Bool
  | .jobj _ => true
  | _ => false

/-- Condition under which the source's load path fails: content missing,
unparseable, falsy or not of JS `typeof "object"`, or containing a
non-string value. Mirrors the guards of `storageGetData`. -/
def malformedLoad (raw : Except Unit (Option JValue)) : Bool :=
  match raw with
  | .error _ => true
  | .ok none => true
  | .ok (some v) =>
    if jsFalsy v || !jsTypeofObject v then true
    else (jsEntries v).any fun kv => !isJString kv.2

/-- C6 counterexample: the persisted content `["a"]` is not a JSON object,
yet `getData` loads it as the index-keyed entry `("0", "a")` and reports no
failure — contrary to the claim that non-object content yields a reported
failure and an empty map. -/
theorem C6_counterexample :
    isJsonObject (JValue.jarr [JValue.jstr "a"]) = false ∧
      storageGetData (.ok (some (JValue.jarr [JValue.jstr "a"]))) true false
        = { report := .noReport, entries := [("0", "a")] } :=
  ⟨rfl, rfl⟩

/-- C6 amended: for every persisted blob whose content is missing,
unparseable, not of JS object type (object *or array*; falsy values
rejected), or containing non-string values, `getData` reports the failure via
the injected `onLoadError` hook when present — falling back to the default
logger when absent, and containing even a throwing hook — and yields an empty
map, never rethrowing; well-formed content is loaded without any report. -/
theorem C6_load_failure_amended (raw : Except Unit (Option JValue))
    (hookPresent hookThrows : Bool) :
    (malformedLoad raw = true →
      (storageGetData raw hookPresent hookThrows).entries = [] ∧
      (storageGetData raw hookPresent hookThrows).report =
        (if hookPresent then (if hookThrows then .hookFailedThenLogger else .viaHook)
         else .viaLoggerDefault)) ∧
    (malformedLoad raw = false →
      (storageGetData raw hookPresent hookThrows).report = .noReport) := by
  constructor
  · intro hm
    match raw with
    | .error _ => exact ⟨rfl, rfl⟩
    | .ok none => exact ⟨rfl, rfl⟩
    | .ok (some v) =>
      simp only [malformedLoad] at hm
      by_cases h1 : (jsFalsy v || !jsTypeofObject v) = true
      · simp [storageGetData, h1, loadFailure]
      · rw [if_neg h1] at hm
        simp [storageGetData, h1, hm, loadFailure]
  · intro hm
    match raw with
    | .error _ => simp [malformedLoad] at hm
    | .ok none => simp [malformedLoad] at hm
    | .ok (some v) =>
      simp only [malformedLoad] at hm
      by_cases h1 : (jsFalsy v || !jsTypeofObject v) = true
      · rw [if_pos h1] at hm
        exact absurd hm (by simp)
      · rw [if_neg h1] at hm
        simp [storageGetData, h1, hm]

/-- Witness for C6 amended at a missing blob with an injected, non-throwing
hook: empty map, reported via the hook. -/
theorem C6_load_failure_amended_witness :
    malformedLoad (.error ()) = true ∧
      (storageGetData (.error ()) true false).entries = [] ∧
      (storageGetData (.error ()) true false).report = .viaHook := by
  have h := (C6_load_failure_amended (.error ()) true false).1 rfl
  exact ⟨rfl, h.1, by simpa using h.2⟩

/-! ## Microtask machine for concurrent `getOrCreate` (C1)

Models the JS event-loop semantics relevant to
`RuntimeStringKeyValueStore.getOrCreate` (`string-kv-store.ts` lines 39-54):

* an async function runs synchronously until its first `await`;
* `await x` where `x` is `undefined` or an already-resolved promise captures
  the awaited value and schedules the continuation on the FIFO microtask
  queue;
* `await p` where `p` is a pending promise registers the continuation, which
  is enqueued (with the resolution value) when `p` resolves;
* the factory of the scenario is `async () => "v"`: its body completes
  synchronously, so `await factory(key)` resumes one microtask later.

All callers of the scenario call `getOrCreate` with the same key on the same
fresh store, exactly the claim's N-concurrent-callers setup. -/

/-- A promise stored at `this.data[key]`: resolved to a value, or a pending
`defer` identified by the caller that created it. -/
inductive Cell where
  | resolved (v : VOpt)
  | pending (owner : ℕ)
deriving Repr, DecidableEq

/-- Continuation point of one suspended `getOrCreate` caller. -/
inductive CallCont where
  | afterRead (v : VOpt)
  | afterFactory (v : String)
deriving Repr, DecidableEq

/-- State of the event-loop machine: the store map, resolutions and waiter
lists of the created defers, the microtask queue, the number of factory
invocations so far, and the values returned by completed callers. -/
structure MachineState where
  store : List (String × Cell)
  resolvedDefers : List (ℕ × VOpt)
  waiters : List (ℕ × List ℕ)
  queue : List (ℕ × CallCont)
  factoryCount : ℕ
  results : List (ℕ × VOpt)
deriving Repr

/-- Fresh cache, nothing scheduled. -/
def freshMachine : MachineState := ⟨[], [], [], [], 0, []⟩

/-- Synchronous part of `getOrCreate(key, factory)` invoked by caller `i`:
evaluate `this.data[key]` (no mutation yet!) and begin awaiting it. -/
def startCall (key : String) (i : ℕ) (st : MachineState) : MachineState :=
  match lookupA st.store key with
  | none => { st with queue := st.queue ++ [(i, .afterRead none)] }
  | some (.resolved v) => { st with queue := st.queue ++ [(i, .afterRead v)] }
  | some (.pending o) =>
    match lookupA st.resolvedDefers o with
    | some v => { st with queue := st.queue ++ [(i, .afterRead v)] }
    | none =>
      { st with waiters := upsertA o ((lookupA st.waiters o).getD [] ++ [i]) st.waiters }

/-- One microtask: run the continuation at the head of the queue.
`afterRead v` resumes `const value = await this.data[key]`: if
`value !== undefined` the caller returns it; otherwise the caller installs
`this.data[key] = defer()` — possibly overwriting another caller's pending
defer — counts a factory invocation, and suspends on `await factory(key)`.
`afterFactory v` resumes after the factory: `promise.resolve(value)` wakes
the waiters of this caller's own defer, and the caller returns `value`. -/
def stepTask (key : String) (fval : String) (st : MachineState) : MachineState :=
  match st.queue with
  | [] => st
  | (i, .afterRead v) :: rest =>
    match v with
    | some v' => { st with queue := rest, results := st.results ++ [(i, some v')] }
    | none =>
      { st with
          queue := rest ++ [(i, .afterFactory fval)],
          store := upsertA key (.pending i) st.store,
          waiters := upsertA i [] st.waiters,
          factoryCount := st.factoryCount + 1 }
  | (i, .afterFactory v) :: rest =>
    { st with
        queue := rest ++ ((lookupA st.waiters i).getD []).map
          (fun j => (j, .afterRead (some (some v)))),
        resolvedDefers := upsertA i (some (some v)) st.resolvedDefers,
        waiters := upsertA i ([] : List ℕ) st.waiters,
        results := st.results ++ [(i, some (some v))] }

/-- Run the microtask queue to completion (with fuel; every scenario below
terminates well within it). -/
def runQueue (key fval : String) : ℕ → MachineState → MachineState
  | 0, st => st
  | n + 1, st =>
    match st.queue with
    | [] => st
    | _ => runQueue key fval n (stepTask key fval st)

/-- The claim's scenario: `n` concurrent `getOrCreate("k", async () => "v")`
calls dispatched in the same synchronous turn (e.g. via `Promise.all`)
against a fresh `RuntimeStringKeyValueStore`, then the microtask queue run to
completion. -/
def concurrentGetOrCreate (n : ℕ) : MachineState :=
  runQueue "k" "v" 100 ((List.range n).foldl (fun st i => startCall "k" i st) freshMachine)

/-- C1 (refuted, code bug): two concurrent `getOrCreate` calls with the same
key on a fresh `RuntimeStringKeyValueStore` invoke the factory twice, not
once — each caller awaits the map read before installing its placeholder, so
both observe `undefined` and both run the factory. Both callers resolve to
the factory value, and a single call invokes the factory exactly once. -/
theorem C1_single_flight_violated :
    (concurrentGetOrCreate 2).factoryCount = 2 ∧
      (concurrentGetOrCreate 2).results = [(0, some (some "v")), (1, some (some "v"))] ∧
      (concurrentGetOrCreate 1).factoryCount = 1 :=
  ⟨rfl, rfl, rfl⟩

/-! ## Orchestrator (`part_000`: `processImageRequest` / `transformSingleImage`)

External collaborators are parameters of the model: `sha` models
`createHash('sha256')…digest('hex')` applied to whatever is fed to
`hash.update` (byte buffers are represented as strings of bytes); `fs` models
`readFile(path)`; the codec models `resizeImage` (sharp + imagemin). Blob
writes (`mkdir`/`writeFile`) have no state observed by any claim and are not
tracked. The path separator is modelled as POSIX `/`, under which
`outputName.split(sep).join('/')` is the identity. The module flag
`renderDebugSizeOnImages` is `false`, so `debugText` is always `undefined`.
The model follows the `sequential: true` execution mode, in which the
transforms run in breakpoint-then-density enumeration order. -/

/-- Input image of a request: raw bytes (a `Buffer`) or a file path. -/
inductive InputImage where
  | bytes (b : String)
  | path (p : String)
deriving Repr, DecidableEq

/-- Output of `resizeImage` (`ResizedImage` in `types.ts`): extension,
rendered width/height, rendered bytes, and the content hash of the rendered
bytes. -/
structure ResizedImage where
  ext : String
  width : ℤ
  height : ℤ
  data : String
  hash : String
deriving Repr, DecidableEq

/-- Image codec capability: `resizeImage(inputBytes, { width: maxWidth })`.
The claims hold for an arbitrary codec function. -/
abbrev Codec := String → ℤ → ResizedImage

/-- `TransformedImageAsset` from `types.ts`. -/
structure TransformedImageAsset where
  src : String
  width : ℤ
  height : ℤ
deriving Repr, DecidableEq

/-- `ImageResizeRequest` fields used by the modelled pipeline. The cache
store instance is threaded separately as a `Cache` value; the optional
`customOutputNameGenerator`/`customStorageWriter` hooks are absent (the
claims concern the default naming and storage path). -/
structure ImageResizeRequest where
  outputDirectory : String
  publicPathPrefix : String
  sequential : Bool
  sizeThreshold : ℚ
  inputImage : InputImage
  pixelDensities : List ℚ
  breakpoints : List Breakpoint
deriving Repr, DecidableEq

/-- Serialization of a rendered asset, `JSON.stringify(entry)` at `part_000`
line 145 with the object-literal key order `height`, `width`, `src`. -/
def serializeAsset (a : TransformedImageAsset) : String :=
  "\x7b\"height\":" ++ toString a.height ++ ",\"width\":" ++ toString a.width ++
    ",\"src\":\"" ++ a.src ++ "\"\x7d"

/-- Decimal digit run to a natural number. -/
def parseNatChars (cs : List Char) : Option ℕ :=
  match cs with
  | [] => none
  | _ =>
    if cs.all (fun c => c.isDigit) then
      some (cs.foldl (fun acc c => acc * 10 + (c.toNat - 48)) 0)
    else none

/-- Optionally signed decimal integer. -/
def parseIntChars (cs : List Char) : Option ℤ :=
  match cs with
  | '-' :: rest => (parseNatChars rest).map (fun n => -(n : ℤ))
  | _ => (parseNatChars cs).map (fun n => (n : ℤ))

/-- Strip an expected literal prefix. -/
def dropLit : List Char → List Char → Option (List Char)
  | [], s => some s
  | c :: cs, d :: ds => if c = d then dropLit cs ds else none
  | _ :: _, [] => none

/-- Model of `JSON.parse` restricted to the asset objects this pipeline
serializes (`JSON.parse` itself is an external collaborator; the pipeline
only ever parses strings produced by `serializeAsset`, possibly via the
persisted cache). -/
def parseAssetChars (s : List Char) : Option TransformedImageAsset :=
  match dropLit "\x7b\"height\":".toList s with
  | none => none
  | some s1 =>
    match parseIntChars (s1.takeWhile (fun c => c ≠ ',')) with
    | none => none
    | some h =>
      match dropLit ",\"width\":".toList (s1.dropWhile (fun c => c ≠ ',')) with
      | none => none
      | some s3 =>
        match parseIntChars (s3.takeWhile (fun c => c ≠ ',')) with
        | none => none
        | some w =>
          match dropLit ",\"src\":\"".toList (s3.dropWhile (fun c => c ≠ ',')) with
          | none => none
          | some s5 =>
            if s5.length ≥ 2 ∧ s5.drop (s5.length - 2) = ['\"', '\x7d'] then
              some ⟨String.mk (s5.take (s5.length - 2)), w, h⟩
            else none

/-- Operand of `hash.update(request.inputImage)` (`part_000` line 114): the
source hashes `request.inputImage` itself — the path string when the input is
given as a path, not the bytes read from the file. -/
def rawHashOperand : InputImage → String
  | .bytes b => b
  | .path p => p

/-- Cache key of `transformSingleImage` (line 118):
`` rawHash@maxWidth:debugText `` with the empty string for an absent debug
text (`debugText||''`). -/
def cacheKey (rawHash : String) (maxWidth : ℤ) (debugText : Option String) : String :=
  rawHash ++ "@" ++ toString maxWidth ++ ":" ++ debugText.getD ""

/-- Cache key as the claim words it: sha256 of the input image *bytes*, then
`@`, the consolidated actualWidth, `:` and the debug text. -/
def claimedCacheKey (sha : String → String) (inputBytes : String) (actualWidth : ℤ)
    (debugText : Option String) : String :=
  sha inputBytes ++ "@" ++ toString actualWidth ++ ":" ++ debugText.getD ""

/-- JS `String.prototype.substring(a, b)` for `a ≤ b` within bounds, as used
by the source. -/
def jsSubstring (s : String) (a b : ℕ) : String :=
  String.mk ((s.toList.drop a).take (b - a))

/-- Default output name (`part_000` lines 125-130): directory = first two
chars of `rawHash`; filename = `rawHash.substring(2, 10)`, `-`,
`Math.floor(width / 10)`, the literal closing brace of the template's stray
`\x7d`, then the extension; joined by the path separator. -/
def defaultOutputName (rawHash : String) (resizedImage : ResizedImage) : String :=
  jsSubstring rawHash 0 2 ++ "/" ++
    (jsSubstring rawHash 2 10 ++ "-" ++ toString (Int.fdiv resizedImage.width 10) ++
      "\x7d" ++ resizedImage.ext)

/-- Default output name as the claim words it: first two hex chars of the
content hash of the *rendered* bytes as a subdirectory, the remaining hash
characters plus the rounded rendered width as the filename. -/
def claimedDefaultOutputName (contentHash : String) (width : ℤ) (ext : String) : String :=
  String.mk (contentHash.toList.take 2) ++ "/" ++
    (String.mk (contentHash.toList.drop 2) ++ "-" ++ toString width ++ ext)

/-- Output name actually produced, in plain words: input-image hash chars 0-2
as the directory, then hash chars 2-10, `-`, `floor(width/10)`, a literal
`\x7d` and the extension. -/
def amendedDefaultOutputName (rawHash : String) (width : ℤ) (ext : String) : String :=
  String.mk (rawHash.toList.take 2) ++ "/" ++
    (String.mk ((rawHash.toList.drop 2).take 8) ++ "-" ++ toString (Int.fdiv width 10) ++
      "\x7d" ++ ext)

/-- Per-request mutable state of `processImageRequest`: the shared cache
store, `statsGeneratedUrls` (src ↦ isCached), the number of times a
`getOrCreate` factory body ran, and the widest-asset aspect tracker. -/
structure OrchestratorState where
  cache : Cache
  stats : List (String × Bool)
  factoryRuns : ℕ
  aspectRatio : Option (ℚ × ℤ)
deriving Repr, DecidableEq

/-- `transformSingleImage` (`part_000` lines 106-154), sequential semantics:
compute `rawHash` over `request.inputImage`, build the cache key, and call
`getOrCreate`. A present entry is returned with `isCached = true`; otherwise
the factory invokes the codec, derives the default output name, builds the
asset and stores its serialization. `if(!entry) throw` rejects a null or
empty result, then the entry is `JSON.parse`d. Returns
`((isCached, asset), cache, factoryRuns)`. -/
def transformSingleImage (sha : String → String) (codec : Codec)
    (request : ImageResizeRequest) (inputImage : String) (maxWidth : ℤ)
    (debugText : Option String) (cache : Cache) :
    Except String ((Bool × TransformedImageAsset) × Cache × ℕ) :=
  let rawHash := sha (rawHashOperand request.inputImage)
  let key := cacheKey rawHash maxWidth debugText
  match lookupA cache key with
  | some entryOpt =>
    match entryOpt with
    | none => .error "Could not process image"
    | some entry =>
      if entry = "" then .error "Could not process image"
      else
        match parseAssetChars entry.toList with
        | none => .error "JSON.parse failed"
        | some a => .ok ((true, a), cache, 0)
  | none =>
    let resizedImage := codec inputImage maxWidth
    let outputName := defaultOutputName rawHash resizedImage
    let asset : TransformedImageAsset :=
      ⟨request.publicPathPrefix ++ "/" ++ outputName, resizedImage.width,
        resizedImage.height⟩
    let entry := serializeAsset asset
    if entry = "" then .error "Could not process image"
    else
      match parseAssetChars entry.toList with
      | none => .error "JSON.parse failed"
      | some a => .ok ((false, a), upsertA key (some entry) cache, 1)

/-- Asset plus the `actualDensity` computed by `transform`. -/
structure TransformOut where
  src : String
  width : ℤ
  height : ℤ
  actualDensity : ℚ
deriving Repr, DecidableEq

/-- `transform(sizeSpec)` (`part_000` lines 21-28): transform at the
consolidated `actualWidth`, record `(src, isCached)` in `statsGeneratedUrls`,
and compute `actualDensity = Math.floor((width / originalTargetWidth) * 100) / 100`
(rational division here; JS float division agrees on the values any claim
touches). -/
def transformStep (sha : String → String) (codec : Codec)
    (request : ImageResizeRequest) (inputImage : String) (sizeSpec : SizeSpec)
    (st : OrchestratorState) : Except String (TransformOut × OrchestratorState) :=
  match transformSingleImage sha codec request inputImage sizeSpec.actualWidth none
      st.cache with
  | .error e => .error e
  | .ok ((isCached, a), cache', fr) =>
    let actualDensity : ℚ := (jsFloorQ (((a.width : ℚ) / sizeSpec.width) * 100) : ℚ) / 100
    .ok (⟨a.src, a.width, a.height, actualDensity⟩,
      { st with
          cache := cache',
          stats := upsertA a.src isCached st.stats,
          factoryRuns := st.factoryRuns + fr })

/-- Aspect-ratio tracker update (`part_000` lines 67-69): keep the
`width / height` ratio of the widest asset seen so far (strictly wider
replaces). -/
def updateAspect (w h : ℤ) (st : OrchestratorState) : OrchestratorState :=
  match st.aspectRatio with
  | none => { st with aspectRatio := some ((w : ℚ) / (h : ℚ), w) }
  | some (_, aw) =>
    if aw < w then { st with aspectRatio := some ((w : ℚ) / (h : ℚ), w) } else st

/-- Entry of a `srcset` (`ImageSetAsset` in `types.ts`). -/
structure ImageSetAsset where
  src : String
  dpi : ℚ
deriving Repr, DecidableEq

/-- `getUniqueImages` (`part_000` lines 156-169): keep the first asset per
distinct `src`. -/
def getUniqueImagesAux : List ImageSetAsset → List String → List ImageSetAsset
  | [], _ => []
  | img :: rest, seen =>
    if img.src ∈ seen then getUniqueImagesAux rest seen
    else img :: getUniqueImagesAux rest (img.src :: seen)

/-- Deduplication of a srcset by `src`. -/
def getUniqueImages (images : List ImageSetAsset) : List ImageSetAsset :=
  getUniqueImagesAux images []

/-- Density loop of `transformForDensities` (`part_000` lines 61-76),
sequential mode: resolve each density's consolidated spec (an absent key is
the internal `miscalculated consolidatedSizes` error), transform, update the
aspect tracker, and collect `{ src, dpi: actualDensity }`. -/
def transformDensityLoop (sha : String → String) (codec : Codec)
    (request : ImageResizeRequest) (inputImage : String) (consolidated : SizeMap)
    (breakpointWidth : ℚ) :
    List ℚ → OrchestratorState → Except String (List ImageSetAsset × OrchestratorState)
  | [], st => .ok ([], st)
  | d :: ds, st =>
    match lookupS consolidated (breakpointWidth, d) with
    | none => .error "miscalculated consolidatedSizes"
    | some sizeSpec =>
      match transformStep sha codec request inputImage sizeSpec st with
      | .error e => .error e
      | .ok (out, st1) =>
        match transformDensityLoop sha codec request inputImage consolidated
            breakpointWidth ds (updateAspect out.width out.height st1) with
        | .error e => .error e
        | .ok (assets, st3) => .ok (⟨out.src, out.actualDensity⟩ :: assets, st3)

/-- `transformForDensities(breakpointWidth)` with the final `getUniqueImages`
deduplication. -/
def transformForDensities (sha : String → String) (codec : Codec)
    (request : ImageResizeRequest) (inputImage : String) (consolidated : SizeMap)
    (breakpointWidth : ℚ) (st : OrchestratorState) :
    Except String (List ImageSetAsset × OrchestratorState) :=
  match transformDensityLoop sha codec request inputImage consolidated breakpointWidth
      request.pixelDensities st with
  | .error e => .error e
  | .ok (assets, st') => .ok (getUniqueImages assets, st')

/-- `ImageSetSource` from `types.ts`: `w = breakpoint.maxWidth`, plus the
srcset. -/
structure ImageSetSource where
  srcset : List ImageSetAsset
  w : ℚ
deriving Repr, DecidableEq

/-- Source-breakpoint loop (`part_000` lines 84-87), sequential mode. The
breakpoints passed here are the non-null-`maxWidth` ones, so `maxWidth!` is
modelled by `getD 0` (never hit on the filtered input). -/
def processSourcesLoop (sha : String → String) (codec : Codec)
    (request : ImageResizeRequest) (inputImage : String) (consolidated : SizeMap) :
    List Breakpoint → OrchestratorState →
      Except String (List ImageSetSource × OrchestratorState)
  | [], st => .ok ([], st)
  | bp :: bps, st =>
    match transformForDensities sha codec request inputImage consolidated
        bp.imageWidth st with
    | .error e => .error e
    | .ok (srcset, st1) =>
      match processSourcesLoop sha codec request inputImage consolidated bps st1 with
      | .error e => .error e
      | .ok (sources, st2) => .ok (⟨srcset, bp.maxWidth.getD 0⟩ :: sources, st2)

/-- `ImageSet` from `types.ts`. -/
structure ImageSet where
  sources : List ImageSetSource
  img : List ImageSetAsset
  aspect : ℚ
deriving Repr, DecidableEq

/-- `ImageResizeResponse` from `types.ts`. -/
structure ImageResizeResponse where
  imageSet : ImageSet
  generated : ℕ
  cached : ℕ
deriving Repr, DecidableEq

/-- `Math.round(ratio * 100000) / 100000` (`part_000` line 94). -/
def jsRound5 (q : ℚ) : ℚ := (jsRound (q * 100000) : ℚ) / 100000

/-- `processImageRequest` (`part_000` lines 15-103), sequential mode: reject
a falsy input image (the empty path string; a `Buffer` is always truthy),
read the bytes, consolidate sizes, split source/fallback breakpoints
(failing without a fallback), run the source transforms then the fallback
transforms, and assemble the response with
`generated = #(stats values that are true)` and
`cached = #(stats values that are false)` (lines 100-101). Returns the
response and the final orchestrator state. -/
def processImageRequest (sha : String → String) (fs : String → String)
    (codec : Codec) (request : ImageResizeRequest) (cache : Cache) :
    Except String (ImageResizeResponse × OrchestratorState) :=
  match request.inputImage with
  | .path "" => .error "Invalid input image"
  | _ =>
    let inputImage :=
      match request.inputImage with
      | .bytes b => b
      | .path p => fs p
    let consolidated :=
      consolidatedSizes request.breakpoints request.pixelDensities
        request.sizeThreshold
    let sourceBreakpoints := request.breakpoints.filter (fun b => b.maxWidth.isSome)
    match request.breakpoints.find? (fun b => b.maxWidth.isNone) with
    | none => .error "Fallback breakpoint (with maxWidth: null) is required"
    | some fallbackBreakpoint =>
      match processSourcesLoop sha codec request inputImage consolidated
          sourceBreakpoints ⟨cache, [], 0, none⟩ with
      | .error e => .error e
      | .ok (sources, st1) =>
        match transformForDensities sha codec request inputImage consolidated
            fallbackBreakpoint.imageWidth st1 with
        | .error e => .error e
        | .ok (fallbackImages, st2) =>
          match st2.aspectRatio with
          | none => .error "TypeError: aspectRatio is null"
          | some (ratio, _) =>
            .ok
              ({ imageSet := ⟨sources, fallbackImages, jsRound5 ratio⟩,
                 generated := ((st2.stats.map Prod.snd).filter (fun x => x)).length,
                 cached := ((st2.stats.map Prod.snd).filter (fun x => !x)).length },
                st2)

/-- Demonstration hash function (content-distinguishing, collision-free on
the inputs used here). -/
def demoSha : String → String := fun s => "HH" ++ s ++ "00"

/-- Demonstration file system: the file at any path holds the bytes
`IMGBYTES` — in particular, the bytes differ from the path string. -/
def demoFs : String → String := fun _ => "IMGBYTES"

/-- Demonstration codec: renders at the requested width with height 100; the
content hash of the rendered bytes is a fixed string unrelated to the input
hash. -/
def demoCodec : Codec := fun _ w => ⟨".webp", w, 100, "RENDERED", "ffffffffffffffff"⟩

/-- Demonstration request with byte input: two breakpoints (one fallback),
density 1, threshold 1, sequential mode. -/
def demoRequest : ImageResizeRequest :=
  ⟨"out", "/img", true, 1, .bytes "B", [1], [⟨some 600, 300⟩, ⟨none, 600⟩]⟩

/-- Demonstration request identical to `demoRequest` but with the input image
given as a file path. -/
def demoRequestPath : ImageResizeRequest :=
  ⟨"out", "/img", true, 1, .path "img.png", [1], [⟨some 600, 300⟩, ⟨none, 600⟩]⟩

section

attribute [local semireducible] Rat.mul Rat.add Rat.sub Rat.inv

/-- C2 (refuted, code bug): the `generated`/`cached` counters are swapped.
`statsGeneratedUrls` stores `isCached` per src, and lines 100-101 count the
`true` values as `generated` and the `false` values as `cached`. On the first
run (two fresh renders) the code reports `generated = 0, cached = 2`; on the
second identical run against the resulting cache — two distinct rendered
widths, no factory body executed (`factoryRuns = 0`) — it reports
`generated = 2, cached = 0`, where the claim requires `generated = 0` and
`cached = 2`. -/
theorem C2_counters_swapped :
    (match processImageRequest demoSha demoFs demoCodec demoRequest [] with
     | .ok (resp, st) => some (resp.generated, resp.cached, st.factoryRuns)
     | .error _ => none) = some (0, 2, 2) ∧
    (match processImageRequest demoSha demoFs demoCodec demoRequest [] with
     | .ok (_, st1) =>
       match processImageRequest demoSha demoFs demoCodec demoRequest st1.cache with
       | .ok (resp2, st2) =>
         some (resp2.generated, resp2.cached, st2.factoryRuns, st2.stats.length)
       | .error _ => none
     | .error _ => none) = some (2, 0, 0, 2) := by decide

/-- C3 (refuted, code bug): with the input image given as a file path, the
cache keys actually used hash the *path string* (`hash.update(request.inputImage)`,
line 114), not the bytes read from the file: the resulting keys equal
`cacheKey (demoSha "img.png") w none` and differ from the claimed
`sha256(bytes) + "@" + w + ":"` key built from the file's bytes. -/
theorem C3_cache_key_hashes_path :
    (match processImageRequest demoSha demoFs demoCodec demoRequestPath [] with
     | .ok (_, st) => some (st.cache.map Prod.fst)
     | .error _ => none)
      = some [cacheKey (demoSha "img.png") 300 none,
              cacheKey (demoSha "img.png") 600 none] ∧
    cacheKey (demoSha "img.png") 300 none ≠
      claimedCacheKey demoSha (demoFs "img.png") 300 none ∧
    (match processImageRequest demoSha demoFs demoCodec demoRequest [] with
     | .ok (_, st) => some (st.cache.map Prod.fst)
     | .error _ => none)
      = some [claimedCacheKey demoSha "B" 300 none,
              claimedCacheKey demoSha "B" 600 none] := by decide

end

/-- Demonstration codec output for the naming counterexample: rendered width
800, content hash of the rendered bytes `ffffffffffffffff`. -/
def demoResized : ResizedImage := ⟨".webp", 800, 450, "RB", "ffffffffffffffff"⟩

/-- Demonstration input-image hash for the naming counterexample. -/
def demoRawHash : String := "abcdefabcdefabcd"

/-- C4 counterexample: the default output name for a concrete transform is
`ab/cdefabcd-80\x7d.webp` — built from the *input* hash's chars 0-2 and 2-10
and `floor(width/10)` with a stray brace — not the claimed
`ff/ffffffffffffff-800.webp` built from the rendered-content hash's first two
chars, its remaining chars and the rendered width. -/
theorem C4_counterexample :
    defaultOutputName demoRawHash demoResized = "ab/cdefabcd-80\x7d.webp" ∧
      claimedDefaultOutputName demoResized.hash demoResized.width demoResized.ext
        = "ff/ffffffffffffff-800.webp" ∧
      defaultOutputName demoRawHash demoResized ≠
        claimedDefaultOutputName demoResized.hash demoResized.width demoResized.ext := by
  refine ⟨rfl, rfl, ?_⟩
  decide

/-- C4 amended: for every transform without a `customOutputNameGenerator`,
the default output name is: first two characters of the hash of the request's
`inputImage` value as the subdirectory, then hash characters 2-10, a dash,
`floor(renderedWidth / 10)`, a literal closing brace, and the extension. -/
theorem C4_default_output_name_amended (rawHash : String) (r : ResizedImage) :
    defaultOutputName rawHash r = amendedDefaultOutputName rawHash r.width r.ext := rfl
